import Mathlib

/-!
Verification of the NDLNoise experiment engine.

Shallow embedding of the two source files:
* `src/Sentence.py` — the `Sentence` classifier (tokenization, marker lookup,
  the `_outOblique` flag);
* `src/main.py` — trial parameters, the trial generator `run_simulations`,
  the per-trial loop `run_child`, the result record built by `run_trial`,
  and the CLI surface `parse_arguments`.

Strings are modelled as `List Char`; Python `int` as `ℤ` (or `ℕ` for counts),
Python `float` as `ℚ`.  The external collaborators (`domain.py`,
`InstrumentedChild.py`) are not part of `src/`; where a claim needs them they
are modelled from the spec, and each such definition says so in its
doc comment.
-/

namespace NDLNoise

/-! ### src/Sentence.py -/

/-- Characters Python `str.split()` (no argument) splits on.  `Char.isWhitespace`
covers space, tab, carriage return and newline, which matches the whitespace
occurring in the corpus lines. -/
def isWsChar (c : Char) : Bool :=
  c.isWhitespace

/-- Accumulating worker for `splitWs`: `acc` holds the current in-progress word
in reverse order. -/
def splitWsAux : List Char → List Char → List (List Char)
  | [], acc => if acc.isEmpty then [] else [acc.reverse]
  | c :: cs, acc =>
    if isWsChar c then
      if acc.isEmpty then splitWsAux cs [] else acc.reverse :: splitWsAux cs []
    else
      splitWsAux cs (c :: acc)

/-- Python `str.split()` with no argument: split on runs of whitespace,
producing no empty words.  Used by `Sentence.__init__` (`infoList[2].split()`,
src/Sentence.py line 11). -/
def splitWs (s : List Char) : List (List Char) :=
  splitWsAux s []

/-- Does `w` start with `key`?  Helper for substring containment. -/
def startsWithKey : List Char → List Char → Bool
  | _, [] => true
  | [], _ :: _ => false
  | c :: cs, k :: ks => c == k && startsWithKey cs ks

/-- Python `key in word` on strings: `key` occurs in `w` as a contiguous
substring (src/Sentence.py line 31). -/
def containsSub : List Char → List Char → Bool
  | [], key => startsWithKey [] key
  | c :: cs, key => startsWithKey (c :: cs) key || containsSub cs key

/-- Position of the first element of the list equal to `w`, if any.
Helper for `pyIndex`. -/
def firstEqIdx (w : List Char) : List (List Char) → Option ℕ
  | [] => none
  | x :: xs => if x = w then some 0 else (firstEqIdx w xs).map (· + 1)

/-- Python `list.index(word)` (src/Sentence.py line 32): index of the first
element equal to `word`.  Python raises `ValueError` when the element is
absent; `indexString` only calls this on an element taken from the list
itself, so the `-1` branch is unreachable at every call site. -/
def pyIndex (l : List (List Char)) (w : List Char) : ℤ :=
  match firstEqIdx w l with
  | some n => (n : ℤ)
  | none => -1

/-- The loop body of `Sentence.indexString` (src/Sentence.py lines 30-33):
walk the suffix `l` of the full token list; on the first word containing
`key`, return `full.index(word)`. -/
def indexStringGo (full : List (List Char)) (key : List Char) :
    List (List Char) → ℤ
  | [] => -1
  | w :: ws =>
    if containsSub w key then pyIndex full w else indexStringGo full key ws

/-- `Sentence.indexString` (src/Sentence.py lines 29-33): index of the first
word of the token list that contains `key`, or `-1` if no word contains it. -/
def indexString (l : List (List Char)) (key : List Char) : ℤ :=
  indexStringGo l key l

/-- The marker string `"O1"`. -/
def keyO1 : List Char := ['O', '1']

/-- The marker string `"O2"`. -/
def keyO2 : List Char := ['O', '2']

/-- The marker string `"P"`. -/
def keyP : List Char := ['P']

/-- The marker string `"O3"`. -/
def keyO3 : List Char := ['O', '3']

/-- The `_outOblique` computation of `Sentence.__init__`
(src/Sentence.py lines 14-25), as a function of the token list.
The Python chained comparison `a < b < c` is `a < b ∧ b < c`. -/
def outObliqueFlag (sentenceList : List (List Char)) : Bool :=
  let O1index := indexString sentenceList keyO1
  let O2index := indexString sentenceList keyO2
  let Pindex := indexString sentenceList keyP
  let O3index := indexString sentenceList keyO3
  if O1index ≠ -1 ∧ O1index < O2index ∧ O2index < Pindex ∧ O3index = Pindex + 1 then
    false
  else if O3index ≠ -1 ∧ O3index < O2index ∧ O2index < O1index ∧ Pindex = O3index + 1 then
    false
  else if O1index ≠ -1 ∧ O2index ≠ -1 ∧ Pindex ≠ -1 ∧ O3index ≠ -1 then
    true
  else
    false

/-- The `Sentence` record (src/Sentence.py lines 6-25).  `language` is
`infoList[0]`, `inflection` is `infoList[1]`, `sentenceStr` is `infoList[2]`,
`sentenceList` its whitespace split, `outOblique` the derived flag
(`_outOblique`, read back by the `outOblique()` accessor).  The unused empty
`triggers` dict is omitted. -/
structure Sentence where
  language : ℤ
  inflection : ℤ
  sentenceStr : List Char
  sentenceList : List (List Char)
  outOblique : Bool
deriving DecidableEq

/-- `Sentence.__init__` (src/Sentence.py lines 7-25). -/
def mkSentence (language inflection : ℤ) (sentenceStr : List Char) : Sentence :=
  let sentenceList := splitWs sentenceStr
  { language := language
    inflection := inflection
    sentenceStr := sentenceStr
    sentenceList := sentenceList
    outOblique := outObliqueFlag sentenceList }

/-- Canonical case A as a predicate on the four marker indices:
`O1` present, `O1 < O2 < P`, and `O3 = P + 1` (src/Sentence.py line 20). -/
def canonicalA (o1 o2 p o3 : ℤ) : Prop :=
  o1 ≠ -1 ∧ o1 < o2 ∧ o2 < p ∧ o3 = p + 1

/-- Canonical case B as a predicate on the four marker indices:
`O3` present, `O3 < O2 < O1`, and `P = O3 + 1` (src/Sentence.py line 22). -/
def canonicalB (o1 o2 p o3 : ℤ) : Prop :=
  o3 ≠ -1 ∧ o3 < o2 ∧ o2 < o1 ∧ p = o3 + 1

instance (o1 o2 p o3 : ℤ) : Decidable (canonicalA o1 o2 p o3) := by
  unfold canonicalA; infer_instance

instance (o1 o2 p o3 : ℤ) : Decidable (canonicalB o1 o2 p o3) := by
  unfold canonicalB; infer_instance

/-- The ordered decision policy exactly as the spec words it, as a function of
the four marker indices: case A gives `false`, else case B gives `false`, else
all four present gives `true`, else `false`.  Stated from the words of the spec so
it can be compared with the source-derived `outObliqueFlag`. -/
def specDecisionPolicy (o1 o2 p o3 : ℤ) : Bool :=
  if o1 ≠ -1 ∧ o1 < o2 ∧ o2 < p ∧ o3 = p + 1 then false
  else if o3 ≠ -1 ∧ o3 < o2 ∧ o2 < o1 ∧ p = o3 + 1 then false
  else if o1 ≠ -1 ∧ o2 ≠ -1 ∧ p ≠ -1 ∧ o3 ≠ -1 then true
  else false

/-- Position of the first token containing `key`, if any.
Helper for `findContainIdx`. -/
def firstContainIdx (key : List Char) : List (List Char) → Option ℕ
  | [] => none
  | w :: ws =>
    if containsSub w key then some 0 else (firstContainIdx key ws).map (· + 1)

/-- The description the spec gives of the marker lookup result: the position
of the first token containing `key`, or `-1` when no token contains it.
Stated from the words of the spec so it can be compared with the
source-derived `indexString`. -/
def findContainIdx (l : List (List Char)) (key : List Char) : ℤ :=
  match firstContainIdx key l with
  | some n => (n : ℤ)
  | none => -1

/-! ### src/main.py — data model -/

/-- `TrialParameters` (src/main.py lines 41-48): the parameters for a single
echild simulation. -/
structure TrialParameters where
  language : ℤ
  noise : ℚ
  rate : ℚ
  conservativerate : ℚ
  numberofsentences : ℕ
deriving DecidableEq

/-- `ExperimentParameters` (src/main.py lines 30-38). -/
structure ExperimentParameters where
  languages : List ℤ
  noise_levels : List ℚ
  learningrate : ℚ
  conservative_learningrate : ℚ
  num_sentences : ℕ
  num_echildren : ℕ
  num_procs : ℕ

/-- Default experiment rate (src/main.py line 23: `rate = 0.9`). -/
def ExperimentDefaults.rate : ℚ := 9 / 10

/-- Default conservative rate (src/main.py line 24: `conservativerate = 0.0005`). -/
def ExperimentDefaults.conservativerate : ℚ := 5 / 10000

/-- Default sentence count (src/main.py line 25). -/
def ExperimentDefaults.numberofsentences : ℕ := 500000

/-- Default echild count (src/main.py line 26). -/
def ExperimentDefaults.numechildren : ℕ := 100

/-- Default noise levels (src/main.py line 27: `[0, 0.05, 0.10, 0.25, 0.50]`). -/
def ExperimentDefaults.noise_levels : List ℚ := [0, 5 / 100, 10 / 100, 25 / 100, 50 / 100]

/-- The generator expression of `run_simulations` (src/main.py lines 107-116):
outer loop over languages, middle loop over noise levels, inner loop over
`range(num_echildren)`, each iteration yielding one `TrialParameters` carrying
the learning rate of the experiment, conservative rate and sentence count. -/
def trials (params : ExperimentParameters) : List TrialParameters :=
  params.languages.flatMap fun lang =>
    params.noise_levels.flatMap fun noise =>
      (List.range params.num_echildren).map fun _ =>
        { language := lang
          noise := noise
          rate := params.learningrate
          numberofsentences := params.num_sentences
          conservativerate := params.conservative_learningrate }

/-- `num_trials` (src/main.py lines 118-120). -/
def num_trials (params : ExperimentParameters) : ℕ :=
  params.num_echildren * params.languages.length * params.noise_levels.length

/-! ### src/main.py — domain and learner collaborators

`domain.py` and `InstrumentedChild.py` are repository files that are not under
`src/`; the definitions below model exactly the interface the spec gives them. -/

/-- The error raised when a trial references a grammar id the domain store does
not know.  src/main.py lines 58-63 declare the `LanguageNotFound` exception
("Raised when a user attempts to read a language that does not exist in domain
file"); the spec calls it `UnknownGrammarError`. -/
inductive DomainError where
  | languageNotFound : DomainError
deriving DecidableEq

/-- Which sampling path a single loop iteration of `run_child` took
(src/main.py lines 71-74). -/
inductive SamplePath where
  | inLanguage : SamplePath
  | notInLanguage : SamplePath
deriving DecidableEq

/-- Modelled from the spec: `domain.py` is not under `src/`.  The corpus
collaborator of the spec exposes `sentenceInLanguage(grammarId)` and
`sentenceNotInLanguage(grammarId)` and "fails with an UnknownGrammar error if
`grammarId` is not registered".  `registered` is the set of grammar ids in the
domain store; `inSentence` / `notInSentence` are the (otherwise unspecified)
sampled sentences for a registered id. -/
structure Domain where
  registered : List ℤ
  inSentence : ℤ → Sentence
  notInSentence : ℤ → Sentence

/-- Modelled from the spec: `DOMAIN.get_sentence_in_language(grammar_id)`
(called at src/main.py line 74) returns a sentence of the target grammar, or
fails with the unknown-grammar error when the id is not registered. -/
def get_sentence_in_language (d : Domain) (grammar_id : ℤ) :
    Except DomainError Sentence :=
  if grammar_id ∈ d.registered then .ok (d.inSentence grammar_id)
  else .error .languageNotFound

/-- Modelled from the spec: `DOMAIN.get_sentence_not_in_language(grammar_id)`
(called at src/main.py line 72) returns a sentence sampled from any grammar
other than the target, or fails with the unknown-grammar error when the id is
not registered. -/
def get_sentence_not_in_language (d : Domain) (grammar_id : ℤ) :
    Except DomainError Sentence :=
  if grammar_id ∈ d.registered then .ok (d.notInSentence grammar_id)
  else .error .languageNotFound

/-- Modelled from the spec: `InstrumentedChild.py` is not under `src/`.  The
learner collaborator of the spec exposes a constructor taking (learning rate,
conservative learning rate, target grammar), a `consume(sentence)` update, and
read-only accessors for the resolved target language and the grammar-weight
mapping.  The embedding is parametric in the state type of the learner `C` and in
what these operations do. -/
structure LearnerModel (C : Type) where
  init : ℚ → ℚ → ℤ → C
  consume : C → Sentence → C
  target_language : C → ℤ
  grammar : C → List (String × ℚ)

/-- The loop of `run_child` (src/main.py lines 70-75), one step per remaining
uniform random draw in `rs`: if the draw is below `noise` request a sentence
not in the language, otherwise one in the language; feed it to the learner;
an error from the domain aborts the loop (Python exception propagation — there
is no handler in `run_child`).  Alongside the final learner state it returns
the list of sampling paths taken, the instrumentation the claims are about. -/
def run_childGo {C : Type} (L : LearnerModel C) (d : Domain) (language : ℤ)
    (noise : ℚ) : C → List ℚ → Except DomainError (C × List SamplePath)
  | c, [] => .ok (c, [])
  | c, r :: rest =>
    if r < noise then
      match get_sentence_not_in_language d language with
      | .error e => .error e
      | .ok s =>
        match run_childGo L d language noise (L.consume c s) rest with
        | .error e => .error e
        | .ok (c2, ps) => .ok (c2, .notInLanguage :: ps)
    else
      match get_sentence_in_language d language with
      | .error e => .error e
      | .ok s =>
        match run_childGo L d language noise (L.consume c s) rest with
        | .error e => .error e
        | .ok (c2, ps) => .ok (c2, .inLanguage :: ps)

/-- `run_child` (src/main.py lines 66-77): build a fresh learner from the rate,
conservative rate and target language, then run the sentence loop.  The
successive values of the Python `random()` calls are passed in as the list `rs`, one
per loop iteration (so `rs.length` plays the role of `numberofsentences`). -/
def run_child {C : Type} (L : LearnerModel C) (d : Domain)
    (language : ℤ) (noise : ℚ) (rate conservativerate : ℚ) (rs : List ℚ) :
    Except DomainError (C × List SamplePath) :=
  run_childGo L d language noise (L.init rate conservativerate language) rs

/-! ### src/main.py — run_trial result record -/

/-- Values stored in the Python result dict of `run_trial`: timestamps and
durations (opaque clock ticks), the integer language id, rational weights and
parameters, and the natural sentence count. -/
inductive Val where
  | timeV : ℕ → Val
  | durV : ℕ → Val
  | intV : ℤ → Val
  | ratV : ℚ → Val
  | natV : ℕ → Val
deriving DecidableEq

/-- Python dict insertion: replace the value in place when the key is present,
append otherwise. -/
def dictInsert : List (String × Val) → String → Val → List (String × Val)
  | [], k, v => [(k, v)]
  | (k0, v0) :: rest, k, v =>
    if k0 = k then (k0, v) :: rest else (k0, v0) :: dictInsert rest k v

/-- Python `{**d, **items}` merging: insert the items left to right, later
occurrences of a key overriding earlier values. -/
def dictExtend (d : List (String × Val)) (items : List (String × Val)) :
    List (String × Val) :=
  items.foldl (fun acc kv => dictInsert acc kv.1 kv.2) d

/-- Lookup in the result dict. -/
def dictLookup : List (String × Val) → String → Option Val
  | [], _ => none
  | (k0, v0) :: rest, k => if k0 = k then some v0 else dictLookup rest k

/-- `dataclasses.asdict(params)` (src/main.py line 84) for `TrialParameters`:
the field-order keyed dict `language`, `noise`, `rate`, `conservativerate`,
`numberofsentences`. -/
def asdict (p : TrialParameters) : List (String × Val) :=
  [( "language", .intV p.language),
   ( "noise", .ratV p.noise),
   ( "rate", .ratV p.rate),
   ( "conservativerate", .ratV p.conservativerate),
   ( "numberofsentences", .natV p.numberofsentences)]

/-- The result dict built by `run_trial` (src/main.py lines 89-93):
the dict literal keyed `timestamp`, `duration`, `language` followed by the unpacked `child.grammar` and `params` dicts — a dict literal whose later `**` unpackings
override earlier entries with the same key. -/
def run_trial_results (child_target_language : ℤ)
    (child_grammar : List (String × ℚ)) (params : TrialParameters)
    (t0 t1 : ℕ) : List (String × Val) :=
  dictExtend
    (dictExtend
      [( "timestamp", .timeV t1),
       ( "duration", .durV (t1 - t0)),
       ( "language", .intV child_target_language)]
      (child_grammar.map fun kv => (kv.1, Val.ratV kv.2)))
    (asdict params)

/-- `run_trial` (src/main.py lines 80-97): run the child with the trial
parameters, then build the result dict from the resolved
target language of the finished child and grammar weights, the clock readings `t0`/`t1` taken around
the run, and the trial parameters. -/
def run_trial {C : Type} (L : LearnerModel C) (d : Domain) (t0 t1 : ℕ)
    (rs : List ℚ) (params : TrialParameters) :
    Except DomainError (List (String × Val)) :=
  match run_child L d params.language params.noise params.rate
      params.conservativerate rs with
  | .error e => .error e
  | .ok (child, _) =>
    .ok (run_trial_results (L.target_language child) (L.grammar child)
      params t0 t1)

/-! ### src/main.py — CLI surface -/

/-- The namespace returned by `argparse` in `parse_arguments`
(src/main.py lines 133-156). -/
structure Args where
  rate : ℚ
  cons_rate : ℚ
  num_echildren : ℕ
  num_sents : ℕ
  noise_levels : List ℚ
  num_procs : ℕ
  verbose : Bool
deriving DecidableEq

/-- `parse_arguments` (src/main.py lines 133-156), at the level of
already-converted option values: every flag is optional with a default, each
value is accepted as converted by its `type=` callable (`float` / `int`), and
no flag is validated further — in particular the `--noise-levels` values are
accepted whatever they are, with no range check against `[0, 1]`, and the
function is total: it cannot report a configuration error for out-of-range
values.  `cpu_count` stands for `multiprocessing.cpu_count()`. -/
def parse_arguments (rateOpt consOpt : Option ℚ)
    (echildrenOpt sentsOpt : Option ℕ) (noiseOpt : Option (List ℚ))
    (procsOpt : Option ℕ) (verbose : Bool) (cpu_count : ℕ) : Args :=
  { rate := rateOpt.getD ExperimentDefaults.rate
    cons_rate := consOpt.getD ExperimentDefaults.conservativerate
    num_echildren := echildrenOpt.getD ExperimentDefaults.numechildren
    num_sents := sentsOpt.getD ExperimentDefaults.numberofsentences
    noise_levels := noiseOpt.getD ExperimentDefaults.noise_levels
    num_procs := procsOpt.getD cpu_count
    verbose := verbose }

/-! ### Concrete fixtures used by witnesses and counterexamples -/

/-- The trial record the generator of `run_simulations` builds for a given
grammar and noise level (src/main.py lines 108-112). -/
def trialOf (p : ExperimentParameters) (lang : ℤ) (noise : ℚ) :
    TrialParameters :=
  { language := lang
    noise := noise
    rate := p.learningrate
    numberofsentences := p.num_sentences
    conservativerate := p.conservative_learningrate }

/-- A small concrete experiment: two grammars, two noise levels,
two echildren per condition. -/
def expW : ExperimentParameters :=
  { languages := [611, 584]
    noise_levels := [0, 1]
    learningrate := 1
    conservative_learningrate := 0
    num_sentences := 7
    num_echildren := 2
    num_procs := 3 }

/-- A concrete domain store knowing only grammar `611`; its sampled sentences
are empty-string sentences of the requested grammar. -/
def domW : Domain :=
  { registered := [611]
    inSentence := fun g => mkSentence g 0 []
    notInSentence := fun g => mkSentence g 0 [] }

/-- A concrete learner whose state is the resolved language id: construction
resolves the target grammar to a different id (`+ 388`), consumption leaves
the state unchanged, and the grammar snapshot is a one-entry weight map. -/
def learnerW : LearnerModel ℤ :=
  { init := fun _ _ lang => lang + 388
    consume := fun c _ => c
    target_language := fun c => c
    grammar := fun _ => [( "g1", (1 : ℚ))] }

/-- The characters of the annotated string `"O1 O2"` (markers `P`, `O3`
absent). -/
def strMissingW : List Char := ['O', '1', ' ', 'O', '2']

/-- The characters of the annotated string `"O2 O1 P O3"` (all four markers
present, neither canonical order). -/
def strObliqueW : List Char :=
  ['O', '2', ' ', 'O', '1', ' ', 'P', ' ', 'O', '3']

/-- The token list `["Foo", "FooO2Bar"]`: the `O2` marker embedded in a larger
token. -/
def toksEmbeddedW : List (List Char) :=
  [['F', 'o', 'o'], ['F', 'o', 'o', 'O', '2', 'B', 'a', 'r']]

/-- The token list `["Foo", "O2"]`: the `O2` marker as an exact token. -/
def toksExactW : List (List Char) :=
  [['F', 'o', 'o'], ['O', '2']]

/-! ## Theorems -/

/-! ### Marker lookup: `indexString` agrees with first-containing-token search -/

/-- If no element of `pre` equals `w`, the first occurrence of `w` in
`pre ++ w :: ws` is at position `pre.length`. -/
theorem firstEqIdx_append (w : List Char) (pre ws : List (List Char))
    (h : ∀ p ∈ pre, p ≠ w) :
    firstEqIdx w (pre ++ w :: ws) = some pre.length := by
  induction pre with
  | nil => simp [firstEqIdx]
  | cons x xs ih =>
    have hx : x ≠ w := h x (by simp)
    simp only [List.cons_append, firstEqIdx, if_neg hx, List.append_eq]
    rw [ih (fun p hp => h p (by simp [hp]))]
    simp

/-- `pyIndex` of the head of the suffix, when nothing earlier equals it. -/
theorem pyIndex_append (w : List Char) (pre ws : List (List Char))
    (h : ∀ p ∈ pre, p ≠ w) :
    pyIndex (pre ++ w :: ws) w = (pre.length : ℤ) := by
  unfold pyIndex
  rw [firstEqIdx_append w pre ws h]

/-- Walking the suffix `suf` of the token list `pre ++ suf`, with every token
of `pre` free of `key`, yields the position of the first `key`-containing
token of `suf`, offset by `pre.length`, or `-1` if there is none. -/
theorem indexStringGo_eq (key : List Char) :
    ∀ (suf pre : List (List Char)),
      (∀ p ∈ pre, containsSub p key = false) →
      indexStringGo (pre ++ suf) key suf =
        match firstContainIdx key suf with
        | some n => ((pre.length + n : ℕ) : ℤ)
        | none => -1 := by
  intro suf
  induction suf with
  | nil => intro pre _; simp [indexStringGo, firstContainIdx]
  | cons w ws ih =>
    intro pre hpre
    by_cases hw : containsSub w key
    · have hne : ∀ p ∈ pre, p ≠ w := by
        intro p hp hpw
        have hfalse := hpre p hp
        rw [hpw, hw] at hfalse
        exact absurd hfalse (by simp)
      simp only [indexStringGo, if_pos hw, firstContainIdx]
      rw [pyIndex_append w pre ws hne]
      simp
    · have hpre2 : ∀ p ∈ pre ++ [w], containsSub p key = false := by
        intro p hp
        rcases List.mem_append.mp hp with h1 | h1
        · exact hpre p h1
        · simp only [List.mem_singleton] at h1
          rw [h1]
          exact Bool.eq_false_iff.mpr hw
      have := ih (pre ++ [w]) hpre2
      rw [List.append_assoc] at this
      simp only [List.singleton_append] at this
      simp only [indexStringGo, if_neg hw, firstContainIdx]
      rw [this]
      cases firstContainIdx key ws with
      | none => simp
      | some n =>
        simp only [Option.map_some', List.length_append, List.length_singleton]
        push_cast
        ring_nf

/-- C6: For every token list and marker key, `indexString` returns the index
of the first token containing the key as a substring (not requiring exact
equality), and `-1` when no token contains it; in particular the token
`"FooO2Bar"` is located at the `O2` position exactly as a token equal to
`"O2"` would be. -/
theorem indexString_is_first_containing (l : List (List Char))
    (key : List Char) :
    indexString l key = findContainIdx l key ∧
    indexString toksEmbeddedW keyO2 = 1 ∧
    indexString toksExactW keyO2 = 1 := by
  refine ⟨?_, by decide, by decide⟩
  have := indexStringGo_eq key l [] (by simp)
  simp only [List.nil_append, List.length_nil] at this
  unfold indexString findContainIdx
  rw [this]
  cases firstContainIdx key l <;> simp

/-! ### The oblique flag -/

/-- The flag computed by `Sentence.__init__` is a function of the four marker
indices only. -/
theorem outObliqueFlag_eq_policy (tokens : List (List Char)) :
    outObliqueFlag tokens =
      specDecisionPolicy (indexString tokens keyO1) (indexString tokens keyO2)
        (indexString tokens keyP) (indexString tokens keyO3) := rfl

/-- The policy returns `false` whenever one of the four indices is `-1` and
the first two branches both give `false` anyway. -/
theorem specDecisionPolicy_false_of_missing (o1 o2 p o3 : ℤ)
    (h : o1 = -1 ∨ o2 = -1 ∨ p = -1 ∨ o3 = -1) :
    specDecisionPolicy o1 o2 p o3 = false := by
  unfold specDecisionPolicy
  split_ifs with h1 h2 h3
  · rfl
  · rfl
  · rcases h with h | h | h | h <;> simp [h] at h3
  · rfl

/-- The policy returns `true` only through its third branch, whose condition
is that all four indices differ from `-1`. -/
theorem specDecisionPolicy_true_imp (o1 o2 p o3 : ℤ)
    (h : specDecisionPolicy o1 o2 p o3 = true) :
    o1 ≠ -1 ∧ o2 ≠ -1 ∧ p ≠ -1 ∧ o3 ≠ -1 := by
  unfold specDecisionPolicy at h
  split_ifs at h with h1 h2 h3
  exact h3

/-- `pyIndex` never returns anything below `-1`. -/
theorem neg_one_le_pyIndex (l : List (List Char)) (w : List Char) :
    -1 ≤ pyIndex l w := by
  unfold pyIndex
  cases firstEqIdx w l with
  | none => simp
  | some n => simp; omega

/-- `indexStringGo` never returns anything below `-1`. -/
theorem neg_one_le_indexStringGo (full : List (List Char)) (key : List Char) :
    ∀ suf : List (List Char), -1 ≤ indexStringGo full key suf := by
  intro suf
  induction suf with
  | nil => simp [indexStringGo]
  | cons w ws ih =>
    unfold indexStringGo
    by_cases hw : containsSub w key
    · simp only [if_pos hw]
      exact neg_one_le_pyIndex full w
    · simpa [if_neg hw] using ih

/-- Every marker index is `-1` or a genuine (nonnegative) position. -/
theorem neg_one_le_indexString (l : List (List Char)) (key : List Char) :
    -1 ≤ indexString l key :=
  neg_one_le_indexStringGo l key l

/-- C1: the flag computed by `Sentence.__init__` equals the ordered decision
policy of the spec, evaluated on the four marker indices of the tokenized
sentence: case A gives `false`, else case B gives `false`, else
all-four-present gives `true`, else `false`. -/
theorem claim1_flag_equals_decision_policy (language inflection : ℤ)
    (sentenceStr : List Char) :
    (mkSentence language inflection sentenceStr).outOblique =
      specDecisionPolicy
        (indexString (splitWs sentenceStr) keyO1)
        (indexString (splitWs sentenceStr) keyO2)
        (indexString (splitWs sentenceStr) keyP)
        (indexString (splitWs sentenceStr) keyO3) := rfl

/-- C5: a sentence in which at least one of the four markers occurs in no
token, and which matches neither canonical ordering, gets flag `false`. -/
theorem claim5_missing_marker_flag_false (language inflection : ℤ)
    (sentenceStr : List Char)
    (hmiss : indexString (splitWs sentenceStr) keyO1 = -1 ∨
      indexString (splitWs sentenceStr) keyO2 = -1 ∨
      indexString (splitWs sentenceStr) keyP = -1 ∨
      indexString (splitWs sentenceStr) keyO3 = -1)
    (_hA : ¬ canonicalA (indexString (splitWs sentenceStr) keyO1)
      (indexString (splitWs sentenceStr) keyO2)
      (indexString (splitWs sentenceStr) keyP)
      (indexString (splitWs sentenceStr) keyO3))
    (_hB : ¬ canonicalB (indexString (splitWs sentenceStr) keyO1)
      (indexString (splitWs sentenceStr) keyO2)
      (indexString (splitWs sentenceStr) keyP)
      (indexString (splitWs sentenceStr) keyO3)) :
    (mkSentence language inflection sentenceStr).outOblique = false := by
  have h := outObliqueFlag_eq_policy (splitWs sentenceStr)
  have h2 := specDecisionPolicy_false_of_missing
    (indexString (splitWs sentenceStr) keyO1)
    (indexString (splitWs sentenceStr) keyO2)
    (indexString (splitWs sentenceStr) keyP)
    (indexString (splitWs sentenceStr) keyO3) hmiss
  show outObliqueFlag (splitWs sentenceStr) = false
  rw [h, h2]

/-- Witness for C5 at the concrete sentence `"O1 O2"`: markers `P` and `O3`
occur in no token, neither canonical ordering matches, and the flag is
`false`. -/
theorem claim5_witness :
    (indexString (splitWs strMissingW) keyO1 = -1 ∨
      indexString (splitWs strMissingW) keyO2 = -1 ∨
      indexString (splitWs strMissingW) keyP = -1 ∨
      indexString (splitWs strMissingW) keyO3 = -1) ∧
    (mkSentence 611 0 strMissingW).outOblique = false :=
  ⟨by decide,
   claim5_missing_marker_flag_false 611 0 strMissingW (by decide) (by decide)
     (by decide)⟩

/-- C10: the flag can be `true` only when all four markers are present, and
neither canonical condition can hold with a marker absent: on indices coming
from `indexString` (hence at least `-1`), each canonical condition forces all
four indices to be nonnegative. -/
theorem claim10_true_needs_all_markers (tokens : List (List Char)) :
    (outObliqueFlag tokens = true →
      indexString tokens keyO1 ≠ -1 ∧ indexString tokens keyO2 ≠ -1 ∧
      indexString tokens keyP ≠ -1 ∧ indexString tokens keyO3 ≠ -1) ∧
    (canonicalA (indexString tokens keyO1) (indexString tokens keyO2)
        (indexString tokens keyP) (indexString tokens keyO3) →
      0 ≤ indexString tokens keyO1 ∧ 0 ≤ indexString tokens keyO2 ∧
      0 ≤ indexString tokens keyP ∧ 0 ≤ indexString tokens keyO3) ∧
    (canonicalB (indexString tokens keyO1) (indexString tokens keyO2)
        (indexString tokens keyP) (indexString tokens keyO3) →
      0 ≤ indexString tokens keyO1 ∧ 0 ≤ indexString tokens keyO2 ∧
      0 ≤ indexString tokens keyP ∧ 0 ≤ indexString tokens keyO3) := by
  have b1 := neg_one_le_indexString tokens keyO1
  have b2 := neg_one_le_indexString tokens keyO2
  have bp := neg_one_le_indexString tokens keyP
  have b3 := neg_one_le_indexString tokens keyO3
  refine ⟨?_, ?_, ?_⟩
  · intro h
    rw [outObliqueFlag_eq_policy tokens] at h
    exact specDecisionPolicy_true_imp _ _ _ _ h
  · intro hA
    unfold canonicalA at hA
    omega
  · intro hB
    unfold canonicalB at hB
    omega

/-- Witness for C10 at the concrete sentence `"O2 O1 P O3"`: the flag is
`true` there, and indeed all four markers are present. -/
theorem claim10_witness :
    outObliqueFlag (splitWs strObliqueW) = true ∧
    (indexString (splitWs strObliqueW) keyO1 ≠ -1 ∧
      indexString (splitWs strObliqueW) keyO2 ≠ -1 ∧
      indexString (splitWs strObliqueW) keyP ≠ -1 ∧
      indexString (splitWs strObliqueW) keyO3 ≠ -1) :=
  ⟨by decide, (claim10_true_needs_all_markers (splitWs strObliqueW)).1
    (by decide)⟩

/-! ### Trial generation -/

/-- A `flatMap` whose pieces all have length `r` has length `xs.length * r`. -/
theorem flatMap_length_const {α β : Type} (xs : List α) (g : α → List β)
    (r : ℕ) (h : ∀ x, (g x).length = r) :
    (xs.flatMap g).length = xs.length * r := by
  induction xs with
  | nil => simp
  | cons x xs ih =>
    simp only [List.flatMap_cons, List.length_append, ih, h x,
      List.length_cons]
    ring

/-- Occurrences of `b` in a `flatMap` are the sum of its occurrences in the
pieces. -/
theorem count_flatMap_eq_sum {α β : Type} [DecidableEq β] (xs : List α)
    (g : α → List β) (b : β) :
    (xs.flatMap g).count b = (xs.map fun x => (g x).count b).sum := by
  induction xs with
  | nil => simp
  | cons x xs ih => simp [List.flatMap_cons, List.count_append, ih]

/-- Summing `if x = x₀ then c else 0` over a list not containing `x₀` gives
`0`. -/
theorem map_sum_ite_zero {α : Type} [DecidableEq α] (l : List α) (x₀ : α)
    (c : ℕ) (h : x₀ ∉ l) :
    (l.map fun x => if x = x₀ then c else 0).sum = 0 := by
  induction l with
  | nil => simp
  | cons x xs ih =>
    have hx : x ≠ x₀ := fun he => h (by simp [he])
    simp only [List.map_cons, List.sum_cons, if_neg hx]
    rw [ih (fun hm => h (by simp [hm]))]

/-- Summing `if x = x₀ then c else 0` over a duplicate-free list containing
`x₀` gives `c`. -/
theorem map_sum_ite_eq {α : Type} [DecidableEq α] (l : List α) (x₀ : α)
    (c : ℕ) (hnd : l.Nodup) (hm : x₀ ∈ l) :
    (l.map fun x => if x = x₀ then c else 0).sum = c := by
  induction l with
  | nil => simp at hm
  | cons x xs ih =>
    rcases List.mem_cons.mp hm with he | hm2
    · simp only [List.map_cons, List.sum_cons, if_pos he.symm]
      have hx0 : x₀ ∉ xs := he ▸ (List.nodup_cons.mp hnd).1
      rw [map_sum_ite_zero xs x₀ c hx0]
      omega
    · have hx : x ≠ x₀ := fun he2 => (List.nodup_cons.mp hnd).1 (he2 ▸ hm2)
      simp only [List.map_cons, List.sum_cons, if_neg hx]
      rw [ih (List.nodup_cons.mp hnd).2 hm2]
      omega


/-- Counting one trial record in the `range`-driven inner loop. -/
theorem count_map_range_const {β : Type} [DecidableEq β] (r : ℕ) (t t₀ : β) :
    (((List.range r).map fun _ => t).count t₀) = if t = t₀ then r else 0 := by
  rw [List.map_const', List.count_replicate, List.length_range]
  by_cases h : t = t₀ <;> simp [h]

/-- Two generated trial records coincide exactly when their grammar and noise
coincide. -/
theorem trialOf_inj (p : ExperimentParameters) (a c : ℤ) (b d : ℚ) :
    trialOf p a b = trialOf p c d ↔ a = c ∧ b = d := by
  unfold trialOf
  constructor
  · intro h
    have := congrArg TrialParameters.language h
    have := congrArg TrialParameters.noise h
    simp_all
  · rintro ⟨rfl, rfl⟩
    rfl

/-- Counting the target record in the middle-and-inner loops for a fixed outer
grammar `lang2`. -/
theorem count_inner (p : ExperimentParameters) (lang0 : ℤ) (noise0 : ℚ)
    (hn : p.noise_levels.Nodup) (hmem : noise0 ∈ p.noise_levels)
    (lang2 : ℤ) :
    ((p.noise_levels.flatMap fun noise =>
        (List.range p.num_echildren).map fun _ => trialOf p lang2 noise).count
      (trialOf p lang0 noise0)) =
      if lang2 = lang0 then p.num_echildren else 0 := by
  rw [count_flatMap_eq_sum]
  by_cases hl : lang2 = lang0
  · subst hl
    rw [if_pos rfl]
    have hcongr : (p.noise_levels.map fun noise =>
        (((List.range p.num_echildren).map fun _ => trialOf p lang2 noise).count
          (trialOf p lang2 noise0))) =
        p.noise_levels.map fun noise => if noise = noise0 then p.num_echildren else 0 := by
      apply List.map_congr_left
      intro noise _
      rw [count_map_range_const]
      by_cases hnn : noise = noise0
      · simp [hnn]
      · rw [if_neg hnn, if_neg]
        intro habs
        exact hnn ((trialOf_inj p lang2 lang2 noise noise0).mp habs).2
    rw [hcongr, map_sum_ite_eq p.noise_levels noise0 p.num_echildren hn hmem]
  · rw [if_neg hl]
    apply List.sum_eq_zero
    intro x hx
    rcases List.mem_map.mp hx with ⟨noise, _, hmk⟩
    rw [count_map_range_const] at hmk
    rw [if_neg] at hmk
    · omega
    · intro habs
      exact hl ((trialOf_inj p lang2 lang0 noise noise0).mp habs).1

/-- C3: the trial generator of `run_simulations` yields exactly
`g * n * r` trials, enumerated outer-grammar, middle-noise, inner-replication;
every trial carries the learning rate, conservative rate and sentence
count of the experiment; and, for duplicate-free grammar and noise lists,
every (grammar, noise) condition occurs exactly `num_echildren` times — once
per replication index. -/
theorem claim3_trial_generation (p : ExperimentParameters)
    (hg : p.languages.Nodup) (hn : p.noise_levels.Nodup) :
    (trials p).length =
      p.languages.length * p.noise_levels.length * p.num_echildren ∧
    trials p = p.languages.flatMap (fun lang =>
      p.noise_levels.flatMap fun noise =>
        List.replicate p.num_echildren (trialOf p lang noise)) ∧
    (∀ t ∈ trials p, t.rate = p.learningrate ∧
      t.conservativerate = p.conservative_learningrate ∧
      t.numberofsentences = p.num_sentences) ∧
    (∀ lang ∈ p.languages, ∀ noise ∈ p.noise_levels,
      (trials p).count (trialOf p lang noise) = p.num_echildren) := by
  refine ⟨?_, ?_, ?_, ?_⟩
  · unfold trials
    rw [flatMap_length_const p.languages _ (p.noise_levels.length * p.num_echildren)]
    · ring
    · intro lang
      rw [flatMap_length_const p.noise_levels _ p.num_echildren]
      intro noise
      simp
  · simp only [trials, trialOf, List.map_const', List.length_range]
  · intro t ht
    unfold trials at ht
    rcases List.mem_flatMap.mp ht with ⟨lang, _, ht2⟩
    rcases List.mem_flatMap.mp ht2 with ⟨noise, _, ht3⟩
    rcases List.mem_map.mp ht3 with ⟨_, _, rfl⟩
    exact ⟨rfl, rfl, rfl⟩
  · intro lang hlang noise hnoise
    unfold trials
    have heq : (p.languages.flatMap fun lang2 =>
        p.noise_levels.flatMap fun noise2 =>
          (List.range p.num_echildren).map fun _ =>
            ({ language := lang2, noise := noise2, rate := p.learningrate,
               numberofsentences := p.num_sentences,
               conservativerate := p.conservative_learningrate } :
              TrialParameters)) =
        p.languages.flatMap fun lang2 =>
          p.noise_levels.flatMap fun noise2 =>
            (List.range p.num_echildren).map fun _ => trialOf p lang2 noise2 := rfl
    rw [heq, count_flatMap_eq_sum]
    have hcongr : (p.languages.map fun lang2 =>
        ((p.noise_levels.flatMap fun noise2 =>
            (List.range p.num_echildren).map fun _ => trialOf p lang2 noise2).count
          (trialOf p lang noise))) =
        p.languages.map fun lang2 => if lang2 = lang then p.num_echildren else 0 := by
      apply List.map_congr_left
      intro lang2 _
      exact count_inner p lang noise hn hnoise lang2
    rw [hcongr, map_sum_ite_eq p.languages lang p.num_echildren hg hlang]

/-- Witness for C3 at a concrete experiment: two grammars, two noise levels,
two echildren; the condition (611, noise 0) occurs exactly twice among the
eight generated trials. -/
theorem claim3_witness :
    expW.languages.Nodup ∧ expW.noise_levels.Nodup ∧
    (trials expW).count (trialOf expW 611 0) = 2 := by
  refine ⟨by decide, by decide, ?_⟩
  have h := claim3_trial_generation expW (by decide) (by decide)
  exact h.2.2.2 611 (by decide) 0 (by decide)

/-! ### The run_child sentence loop -/

/-- With noise `0` and nonnegative draws, every iteration takes the
in-language path. -/
theorem run_childGo_noise_zero {C : Type} (L : LearnerModel C) (d : Domain)
    (language : ℤ) (hreg : language ∈ d.registered) :
    ∀ (rs : List ℚ) (c : C), (∀ r ∈ rs, 0 ≤ r) →
      ∃ c2, run_childGo L d language 0 c rs =
        .ok (c2, List.replicate rs.length SamplePath.inLanguage) := by
  intro rs
  induction rs with
  | nil => intro c _; exact ⟨c, rfl⟩
  | cons r rest ih =>
    intro c hr
    have hnlt : ¬ r < 0 := not_lt.mpr (hr r (by simp))
    obtain ⟨c2, hc2⟩ := ih (L.consume c (d.inSentence language))
      (fun x hx => hr x (by simp [hx]))
    refine ⟨c2, ?_⟩
    simp only [run_childGo, if_neg hnlt, get_sentence_in_language,
      if_pos hreg, hc2, List.length_cons, List.replicate_succ]

/-- With noise `1` and draws below `1`, every iteration takes the
not-in-language path. -/
theorem run_childGo_noise_one {C : Type} (L : LearnerModel C) (d : Domain)
    (language : ℤ) (hreg : language ∈ d.registered) :
    ∀ (rs : List ℚ) (c : C), (∀ r ∈ rs, r < 1) →
      ∃ c2, run_childGo L d language 1 c rs =
        .ok (c2, List.replicate rs.length SamplePath.notInLanguage) := by
  intro rs
  induction rs with
  | nil => intro c _; exact ⟨c, rfl⟩
  | cons r rest ih =>
    intro c hr
    have hlt : r < 1 := hr r (by simp)
    obtain ⟨c2, hc2⟩ := ih (L.consume c (d.notInSentence language))
      (fun x hx => hr x (by simp [hx]))
    refine ⟨c2, ?_⟩
    simp only [run_childGo, if_pos hlt, get_sentence_not_in_language,
      if_pos hreg, hc2, List.length_cons, List.replicate_succ]

/-- C4: for a registered target grammar and `k` uniform draws all lying in
`[0, 1)`, a trial with noise probability `0` samples all `k` sentences through
the in-language path (the not-in-language path is taken zero times), and a
trial with noise probability `1` samples all `k` sentences through the
not-in-language path. -/
theorem claim4_noise_extremes {C : Type} (L : LearnerModel C) (d : Domain)
    (language : ℤ) (rate conservativerate : ℚ) (rs : List ℚ) (k : ℕ)
    (hlen : rs.length = k) (hreg : language ∈ d.registered)
    (hr : ∀ r ∈ rs, 0 ≤ r ∧ r < 1) :
    (∃ c, run_child L d language 0 rate conservativerate rs =
      .ok (c, List.replicate k SamplePath.inLanguage)) ∧
    (∃ c, run_child L d language 1 rate conservativerate rs =
      .ok (c, List.replicate k SamplePath.notInLanguage)) := by
  subst hlen
  constructor
  · exact run_childGo_noise_zero L d language hreg rs
      (L.init rate conservativerate language) (fun r h => (hr r h).1)
  · exact run_childGo_noise_one L d language hreg rs
      (L.init rate conservativerate language) (fun r h => (hr r h).2)

/-- Witness for C4 at a concrete trial: grammar `611` registered in `domW`,
two draws both equal to `0` (inside `[0, 1)`): with noise `0` both samples
take the in-language path, with noise `1` both take the not-in-language
path. -/
theorem claim4_witness :
    (611 : ℤ) ∈ domW.registered ∧
    (∃ c, run_child learnerW domW 611 0 1 0 [0, 0] =
      .ok (c, List.replicate 2 SamplePath.inLanguage)) ∧
    (∃ c, run_child learnerW domW 611 1 1 0 [0, 0] =
      .ok (c, List.replicate 2 SamplePath.notInLanguage)) :=
  ⟨by decide,
   claim4_noise_extremes learnerW domW 611 1 0 [0, 0] 2 rfl (by decide)
     (by decide)⟩

/-- C9: a trial whose grammar id the domain store does not know fails on the
very first sentence request: the unknown-grammar error propagates out of
`run_child` (which installs no handler), whatever the noise level, the draw,
and the remaining draws — no retry, no swallowed error, no silently missing
result. -/
theorem claim9_unknown_grammar_fails_fast {C : Type} (L : LearnerModel C)
    (d : Domain) (language : ℤ) (noise : ℚ) (rate conservativerate : ℚ)
    (r : ℚ) (rest : List ℚ) (hreg : language ∉ d.registered) :
    run_child L d language noise rate conservativerate (r :: rest) =
      .error DomainError.languageNotFound := by
  unfold run_child run_childGo
  by_cases hlt : r < noise
  · simp [if_pos hlt, get_sentence_not_in_language, if_neg hreg]
  · simp [if_neg hlt, get_sentence_in_language, if_neg hreg]

/-- Witness for C9 at a concrete trial: grammar `999` is not registered in
`domW`, and the run errors out immediately. -/
theorem claim9_witness :
    (999 : ℤ) ∉ domW.registered ∧
    run_child learnerW domW 999 0 1 0 [0] =
      .error DomainError.languageNotFound :=
  ⟨by decide,
   claim9_unknown_grammar_fails_fast learnerW domW 999 0 1 0 0 [] (by decide)⟩

/-! ### The run_trial result record -/

/-- Looking up the key just inserted finds the new value. -/
theorem dictLookup_dictInsert_self (d : List (String × Val)) (k : String)
    (v : Val) : dictLookup (dictInsert d k v) k = some v := by
  induction d with
  | nil => simp [dictInsert, dictLookup]
  | cons kv rest ih =>
    obtain ⟨k0, v0⟩ := kv
    by_cases h : k0 = k
    · simp [dictInsert, if_pos h, dictLookup, h]
    · simp [dictInsert, if_neg h, dictLookup, ih]

/-- Inserting under a different key leaves a lookup unchanged. -/
theorem dictLookup_dictInsert_ne (d : List (String × Val)) (k2 k : String)
    (v : Val) (h : k2 ≠ k) :
    dictLookup (dictInsert d k2 v) k = dictLookup d k := by
  induction d with
  | nil => simp [dictInsert, dictLookup, h]
  | cons kv rest ih =>
    obtain ⟨k0, v0⟩ := kv
    by_cases h0 : k0 = k2
    · subst h0
      simp [dictInsert, dictLookup, if_neg h]
    · by_cases h1 : k0 = k
      · simp [dictInsert, if_neg h0, dictLookup, if_pos h1]
      · simp [dictInsert, if_neg h0, dictLookup, if_neg h1, ih]

/-- In every result dict built by `run_trial`, the `language` entry holds the
language of the trial parameters, whatever resolved target language the
learner reports: the trailing `**params` unpacking overwrites the
`child.target_language` entry. -/
theorem run_trial_results_language_field (tl : ℤ) (g : List (String × ℚ))
    (params : TrialParameters) (t0 t1 : ℕ) :
    dictLookup (run_trial_results tl g params t0 t1) "language" =
      some (Val.intV params.language) := by
  unfold run_trial_results asdict dictExtend
  simp only [List.foldl_cons, List.foldl_nil]
  rw [dictLookup_dictInsert_ne _ _ _ _ (by decide),
    dictLookup_dictInsert_ne _ _ _ _ (by decide),
    dictLookup_dictInsert_ne _ _ _ _ (by decide),
    dictLookup_dictInsert_ne _ _ _ _ (by decide),
    dictLookup_dictInsert_self]

/-- C2 (code bug, concrete run): a learner that resolves target grammar `611`
to the different id `999` still yields a result record whose `language` entry
is `611` — the copy of the trial parameters, unpacked last into the dict
literal, silently overwrites the resolved target-language identifier that
`run_trial` had just read from the learner.  All other promised entries
(timestamp, duration, grammar snapshot, parameter copies) are present. -/
theorem claim2_language_entry_overwritten :
    run_trial learnerW domW 3 8 []
        { language := 611, noise := 0, rate := 1, conservativerate := 0,
          numberofsentences := 0 } =
      .ok [( "timestamp", Val.timeV 8), ( "duration", Val.durV 5),
        ( "language", Val.intV 611), ( "g1", Val.ratV 1),
        ( "noise", Val.ratV 0), ( "rate", Val.ratV 1),
        ( "conservativerate", Val.ratV 0),
        ( "numberofsentences", Val.natV 0)] ∧
    learnerW.target_language (learnerW.init 1 0 611) = 999 ∧
    (611 : ℤ) ≠ 999 := by
  refine ⟨rfl, rfl, by decide⟩

/-! ### The CLI surface -/

/-- C8 counterexample: the CLI invocation supplying the out-of-range noise
level `2` parses successfully into a normal argument record carrying
`noise_levels = [2]` — `parse_arguments` is a total function with no
validation path, so no configuration error is reported and no early non-zero
exit happens before trials run. -/
theorem claim8_counterexample :
    parse_arguments none none none none (some [2]) none false 4 =
      { rate := ExperimentDefaults.rate
        cons_rate := ExperimentDefaults.conservativerate
        num_echildren := ExperimentDefaults.numechildren
        num_sents := ExperimentDefaults.numberofsentences
        noise_levels := [2]
        num_procs := 4
        verbose := false } ∧
    ¬ ((2 : ℚ) ≤ 1) :=
  ⟨rfl, by decide⟩

/-- C8 amended: `parse_arguments` accepts any supplied list of noise levels
verbatim — including values outside `[0, 1]` — and never reports an error. -/
theorem claim8_no_noise_validation (rateOpt consOpt : Option ℚ)
    (echOpt sentsOpt : Option ℕ) (ns : List ℚ) (procsOpt : Option ℕ)
    (verbose : Bool) (cpu : ℕ) :
    (parse_arguments rateOpt consOpt echOpt sentsOpt (some ns) procsOpt
      verbose cpu).noise_levels = ns := rfl

end NDLNoise
